import Mathlib

/-!
Verification of the crawl orchestration engine of this repository
(an Express + crawlee web crawler/gatherer server).

The two source operations are `startCrawler` (Site mode) and
`startGatherer` (Gather mode).  Their pure logic — selector
normalization, the extraction pipeline, keyword relevance filtering,
the search-query planner, DuckDuckGo redirect-link resolution and the
emission-count bookkeeping — is embedded shallowly below, translated
from the source.  Stateful parts (the per-job emission counter, the
active-crawler registry and the socket event surface) are modelled as
explicit state passing over lists of handler invocations.
-/

namespace Crawler4

/-! ## JavaScript string primitives used by the source -/

/-- `hay` starts with `needle` (JS `String.prototype.startsWith`). -/
def clStartsWith : List Char → List Char → Bool
  | _, [] => true
  | [], _ :: _ => false
  | h :: hs, n :: ns => h == n && clStartsWith hs ns

/-- `needle` occurs as a contiguous substring of `hay`
(JS `String.prototype.includes`). -/
def clContains : List Char → List Char → Bool
  | [], needle => needle.isEmpty
  | h :: hs, needle => clStartsWith (h :: hs) needle || clContains hs needle

/-- JS `hay.includes(needle)`. -/
def jsIncludes (hay needle : String) : Bool :=
  clContains hay.data needle.data

/-- JS `s.startsWith(p)`. -/
def jsStartsWith (s p : String) : Bool :=
  clStartsWith s.data p.data

/-- ASCII lowercasing of one character (the strings the source
lowercases are ASCII; JS `toLowerCase` agrees there). -/
def jsCharLower (c : Char) : Char :=
  if 65 ≤ c.toNat ∧ c.toNat ≤ 90 then Char.ofNat (c.toNat + 32) else c

/-- JS `s.toLowerCase()`. -/
def jsToLower (s : String) : String :=
  String.mk (s.data.map jsCharLower)

/-- JS `s.trim()`: strip leading and trailing whitespace. -/
def jsTrim (s : String) : String :=
  String.mk (((s.data.dropWhile Char.isWhitespace).reverse.dropWhile
    Char.isWhitespace).reverse)

/-- Split on a separator character; always yields at least one
(possibly empty) segment, like JS `String.prototype.split`. -/
def splitOnCharAux (sep : Char) : List Char → List Char → List (List Char)
  | [], acc => [acc.reverse]
  | x :: xs, acc =>
    if x == sep then acc.reverse :: splitOnCharAux sep xs []
    else splitOnCharAux sep xs (x :: acc)

/-- JS `s.split(sep)` for a one-character separator. -/
def jsSplitChar (sep : Char) (s : String) : List String :=
  (splitOnCharAux sep s.data []).map String.mk

/-! ## Parsed page and extracted record -/

/-- An image element as the crawler sees it: its `src` and `alt`
attributes.  A missing attribute is modelled as `""` (JS `undefined`
and `""` behave identically under the source's truthiness filters). -/
structure Image where
  src : String
  alt : String
deriving Repr, DecidableEq

/-- The queryable document the request handler works on: the texts and
attributes the source selects via cheerio. -/
structure Page where
  /-- request.url for this page -/
  url : String
  /-- text of the title element -/
  title : String
  /-- raw texts of the h1, h2, h3 elements, in document order -/
  headings : List String
  /-- raw texts of the p elements, in document order -/
  paragraphs : List String
  /-- content attribute of meta[name=description], if present -/
  metaDescription : Option String
  /-- content attribute of meta[name=keywords], if present -/
  metaKeywords : Option String
  /-- img elements in document order -/
  images : List Image
  /-- href attributes of the a elements ("" when absent) -/
  anchors : List String
  /-- full body text -/
  bodyText : String
deriving Repr, DecidableEq

/-- The `meta` field of an extracted record. -/
structure MetaInfo where
  description : Option String
  keywords : Option String
deriving Repr, DecidableEq

/-- One emitted record (`extractedData` in the source).  Optional
fields are present only when the corresponding selector guard fired. -/
structure Record where
  url : String
  title : String
  headings : Option (List String) := none
  text : Option (List String) := none
  meta : Option MetaInfo := none
  images : Option (List Image) := none
  links : Option (List String) := none
deriving Repr, DecidableEq

/-! ## Selector normalization (both modes) -/

/-- `selectors.map(s => s.toLowerCase().trim())` — the list form of the
source's selector normalization. -/
def normalizeSelectors (sels : List String) : List String :=
  sels.map (fun s => jsTrim (jsToLower s))

/-! ## De-duplication helpers (Site mode)

`[...new Set(xs)]` keeps the first occurrence of each value;
`images.filter((v,i,a) => a.findIndex(t => t.src === v.src) === i)`
keeps the first image per `src`. -/

/-- Boolean membership by string equality (JS `===` among strings). -/
def inList : List String → String → Bool
  | [], _ => false
  | y :: ys, x => x == y || inList ys x

def dedupFirstAux (seen : List String) : List String → List String
  | [] => []
  | x :: xs =>
    if inList seen x then dedupFirstAux seen xs
    else x :: dedupFirstAux (x :: seen) xs

/-- First-occurrence de-duplication, as `[...new Set(xs)]`. -/
def dedupFirst (xs : List String) : List String :=
  dedupFirstAux [] xs

def dedupBySrcAux (seen : List String) : List Image → List Image
  | [] => []
  | img :: rest =>
    if inList seen img.src then dedupBySrcAux seen rest
    else img :: dedupBySrcAux (img.src :: seen) rest

/-- First-occurrence de-duplication of images by `src`. -/
def dedupBySrc (xs : List Image) : List Image :=
  dedupBySrcAux [] xs

/-! ## Site-mode extraction (`startCrawler` request handler) -/

/-- `normalizedSelectors.some(s => s.includes("heading"))` -/
def wantsHeading (sels : List String) : Bool :=
  sels.any (fun s => jsIncludes s "heading")

/-- `normalizedSelectors.some(s => s.includes("text") || s.includes("paragraph"))` -/
def wantsText (sels : List String) : Bool :=
  sels.any (fun s => jsIncludes s "text" || jsIncludes s "paragraph")

/-- `normalizedSelectors.some(s => s.includes("meta"))` -/
def wantsMeta (sels : List String) : Bool :=
  sels.any (fun s => jsIncludes s "meta")

/-- `normalizedSelectors.some(s => s.includes("image"))` -/
def wantsImage (sels : List String) : Bool :=
  sels.any (fun s => jsIncludes s "image")

/-- `normalizedSelectors.some(s => s.includes("link") || s.includes("url"))` -/
def wantsLink (sels : List String) : Bool :=
  sels.any (fun s => jsIncludes s "link" || jsIncludes s "url")

/-- Site-mode `extractedData` construction, selector guard by guard. -/
def siteExtract (sels : List String) (p : Page) : Record :=
  { url := p.url
    title := p.title
    headings :=
      if wantsHeading sels then
        some (dedupFirst ((p.headings.map jsTrim).filter (fun t => t.length > 0)))
      else none
    text :=
      if wantsText sels then
        some ((p.paragraphs.map jsTrim).filter (fun t => t.length > 0))
      else none
    meta :=
      if wantsMeta sels then
        some { description := p.metaDescription, keywords := p.metaKeywords }
      else none
    images :=
      if wantsImage sels then
        some (dedupBySrc (p.images.filter (fun img => img.src ≠ "")))
      else none
    links :=
      if wantsLink sels then
        some (dedupFirst (p.anchors.filter (fun l => l ≠ "")))
      else none }

/-! ## Keyword relevance filter -/

/-- Site mode: `keywords.split(",").map(k => k.trim().toLowerCase())`. -/
def siteKeywordList (keywords : String) : List String :=
  (jsSplitChar ',' keywords).map (fun k => jsToLower (jsTrim k))

/-- Site-mode keyword filter: with no keywords every page matches,
otherwise some keyword must occur in the lowercased body text. -/
def siteMatches (keywords : String) (p : Page) : Bool :=
  if keywords = "" then true
  else (siteKeywordList keywords).any (fun k => jsIncludes (jsToLower p.bodyText) k)

/-- Gather mode: `searchKeywords.split(",").map(k => k.trim().toLowerCase()).filter(k => k)`. -/
def gatherKeywordList (keywords : String) : List String :=
  ((jsSplitChar ',' keywords).map (fun k => jsToLower (jsTrim k))).filter (fun k => k ≠ "")

/-- Gather-mode keyword filter: some keyword must occur in the
lowercased body text or the lowercased (trimmed) title. -/
def gatherMatches (keywords : String) (p : Page) : Bool :=
  if keywords = "" then true
  else (gatherKeywordList keywords).any
    (fun k => jsIncludes (jsToLower p.bodyText) k || jsIncludes (jsToLower (jsTrim p.title)) k)

/-! ## Gather-mode extraction (`startGatherer` request handler) -/

/-- Gather-mode `extractedData` construction.  Selector membership is
exact (`normalizedSelectors.includes("headings")` etc.), filters keep
only sufficiently long strings / absolute URLs, results are truncated,
and — unlike Site mode — nothing is de-duplicated. -/
def gatherExtract (sels : List String) (p : Page) : Record :=
  { url := p.url
    title := jsTrim p.title
    headings :=
      if sels.contains "headings" then
        some ((p.headings.map jsTrim).filter (fun t => t.length > 2))
      else none
    text :=
      if sels.contains "text" then
        some (((p.paragraphs.map jsTrim).filter (fun t => t.length > 20)).take 10)
      else none
    meta :=
      if sels.contains "meta" then
        some { description := p.metaDescription, keywords := p.metaKeywords }
      else none
    images :=
      if sels.contains "images" then
        some ((p.images.filter
          (fun img => img.src ≠ "" && jsStartsWith img.src "http")).take 10)
      else none
    links :=
      if sels.contains "links" then
        some ((p.anchors.filter
          (fun l => l ≠ "" && jsStartsWith l "http")).take 20)
      else none }

/-! ## Search Query Planner (`startGatherer` seed-URL construction) -/

/-- Uppercase hexadecimal digit for `n < 16`. -/
def hexDigitUpper (n : Nat) : Char :=
  if n < 10 then Char.ofNat (48 + n) else Char.ofNat (55 + n)

/-- UTF-8 byte sequence of a character (the standard encoding,
computed from the code point). -/
def utf8Bytes (c : Char) : List Nat :=
  let n := c.toNat
  if n < 0x80 then [n]
  else if n < 0x800 then [0xC0 + n / 64, 0x80 + n % 64]
  else if n < 0x10000 then
    [0xE0 + n / 4096, 0x80 + n / 64 % 64, 0x80 + n % 64]
  else
    [0xF0 + n / 262144, 0x80 + n / 4096 % 64, 0x80 + n / 64 % 64, 0x80 + n % 64]

/-- Characters `encodeURIComponent` leaves unescaped. -/
def uriUnreserved (c : Char) : Bool :=
  c.isAlphanum || (['-', '_', '.', '!', '~', '*', Char.ofNat 39, '(', ')']).contains c

/-- JS `encodeURIComponent`: unreserved characters pass through, every
other character is percent-encoded byte by byte (UTF-8, uppercase hex). -/
def encodeURIComponent (s : String) : String :=
  String.mk (s.data.foldr
    (fun c acc =>
      if uriUnreserved c then c :: acc
      else (utf8Bytes c).foldr
        (fun b acc2 => '%' :: hexDigitUpper (b / 16) :: hexDigitUpper (b % 16) :: acc2)
        acc)
    [])

/-- `parseInt(limit) || 50` — Math.ceil(targetLimit / 5) on a positive
integer limit is `(L + 4) / 5` in integer arithmetic. -/
def maxPages (targetLimit : Nat) : Nat :=
  min 5 ((targetLimit + 4) / 5)

/-- One paginated DuckDuckGo HTML search URL. -/
def mkSearchUrl (query : String) (offset : Nat) : String :=
  "https://duckduckgo.com/html/?q=" ++ encodeURIComponent query ++ "&s=" ++ toString offset

/-- The seed-URL loop of `startGatherer`: `query` is
`(topic + " " + keywords).trim()`; page `i` gets offset
`i * itemsPerPage` with `itemsPerPage = 30`. -/
def searchUrls (targetLimit : Nat) (topic keywords : String) : List String :=
  let query := jsTrim (topic ++ " " ++ keywords)
  (List.range (maxPages targetLimit)).map (fun i => mkSearchUrl query (i * 30))

/-! ## DuckDuckGo redirect-link resolution (`startGatherer` enqueue loop)

The source runs `new URL(link, 'https://duckduckgo.com').searchParams.get('uddg')`
on wrapper links.  The embedding parses the query string of the link
directly (the base only supplies the origin; a `/l/…` link keeps its
own path and query).  Percent-decoding is modelled for single-byte
(`%XX < 0x80`) escape sequences, which covers ASCII destinations;
`+` decodes to a space as in `URLSearchParams`. -/

/-- Value of a hexadecimal digit character, 16 when not a hex digit. -/
def hexVal (c : Char) : Nat :=
  if '0' ≤ c ∧ c ≤ '9' then c.toNat - 48
  else if 'A' ≤ c ∧ c ≤ 'F' then c.toNat - 55
  else if 'a' ≤ c ∧ c ≤ 'f' then c.toNat - 87
  else 16

def isHexDigit (c : Char) : Bool :=
  hexVal c < 16

/-- `application/x-www-form-urlencoded` decoding on characters. -/
def decodeChars : List Char → List Char
  | [] => []
  | '%' :: a :: b :: rest =>
    if isHexDigit a && isHexDigit b then
      Char.ofNat (16 * hexVal a + hexVal b) :: decodeChars rest
    else '%' :: decodeChars (a :: b :: rest)
  | '+' :: rest => ' ' :: decodeChars rest
  | c :: rest => c :: decodeChars rest

def decodeComponent (s : String) : String :=
  String.mk (decodeChars s.data)

/-- Everything after the first `?`. -/
def afterQMark : List Char → List Char
  | [] => []
  | '?' :: rest => rest
  | _ :: rest => afterQMark rest

/-- The query string of a link as the URL parser sees it: the fragment
(everything from the first `#`) is excluded, then everything after the
first `?` is the query. -/
def queryOf (link : String) : String :=
  String.mk (afterQMark (link.data.takeWhile (fun c => c ≠ '#')))

/-- Split a `key=value` pair at the first `=`; a pair without `=`
gets the empty value, as in `URLSearchParams`. -/
def splitFirstAt (sep : Char) : List Char → List Char × List Char
  | [] => ([], [])
  | x :: xs =>
    if x == sep then ([], xs)
    else
      let r := splitFirstAt sep xs
      (x :: r.1, r.2)

/-- `URLSearchParams.get(key)`: first `key=value` pair of the query
string (split at the first `=`, both sides form-decoded). -/
def searchParamGet (link key : String) : Option String :=
  let pairs := (splitOnCharAux '&' (queryOf link).data []).filterMap (fun p =>
    if p.isEmpty then none
    else
      let kv := splitFirstAt '=' p
      some (decodeComponent (String.mk kv.1), decodeComponent (String.mk kv.2)))
  (pairs.find? (fun kv => kv.1 = key)).map (fun kv => kv.2)

/-- The wrapper unwrap step of the enqueue loop: for a link whose path
starts with `/l/`, `const actualUrl = urlObj.searchParams.get('uddg');
if (actualUrl) link = actualUrl;` — the link is replaced only when the
parameter is present AND truthy (non-empty); a missing or empty `uddg`
keeps the wrapper link as-is. -/
def ddgResolveLink (link : String) : String :=
  if jsStartsWith link "/l/" then
    match searchParamGet link "uddg" with
    | some actualUrl => if actualUrl = "" then link else actualUrl
    | none => link
  else link

/-- The enqueue guard of the source:
`link.startsWith('http') && !link.includes('duckduckgo.com')`
applied to the resolved link. -/
def ddgShouldEnqueue (link : String) : Bool :=
  let l := ddgResolveLink link
  jsStartsWith l "http" && !jsIncludes l "duckduckgo.com"

/-- The characters following the first `://`, if any. -/
def afterSchemeSep : List Char → Option (List Char)
  | ':' :: '/' :: '/' :: rest => some rest
  | _ :: rest => afterSchemeSep rest
  | [] => none

/-- The host component of an absolute URL: the part between `://` and
the next `/`, with any `:port` suffix dropped.  Used to state the
spec's notion of "pointing back at the search provider's own origin". -/
def urlHostOf (l : String) : String :=
  match afterSchemeSep l.data with
  | some rest =>
    String.mk ((rest.takeWhile (fun c => c ≠ '/')).takeWhile (fun c => c ≠ ':'))
  | none => ""

/-- Acceptance condition as the SPEC words it (for comparison with
`ddgShouldEnqueue`): the resolved link is absolute and its host is not
the search provider's. -/
def specLinkAccepted (link : String) : Bool :=
  let l := ddgResolveLink link
  jsStartsWith l "http" && !(urlHostOf l == "duckduckgo.com")

/-! ## Emission bookkeeping -/

/-- One Gather-mode handler invocation on a content (non-DDG) page:
given the current `emittedCount`, returns the new count and the record
emitted, if any.  Mirrors the guards of the source in order:
`emittedCount >= targetLimit` early return, keyword match, and the
`emittedCount < targetLimit` emission guard. -/
def gatherHandle (sels : List String) (keywords : String) (targetLimit : Nat)
    (emittedCount : Nat) (p : Page) : Nat × Option Record :=
  if emittedCount ≥ targetLimit then (emittedCount, none)
  else if gatherMatches keywords p then
    if emittedCount < targetLimit then
      (emittedCount + 1, some (gatherExtract sels p))
    else (emittedCount, none)
  else (emittedCount, none)

/-- A whole Gather run over a sequence of content pages, threading
`emittedCount`, collecting the emitted records. -/
def gatherRun (sels : List String) (keywords : String) (targetLimit : Nat) :
    Nat → List Page → Nat × List Record
  | count, [] => (count, [])
  | count, p :: ps =>
    let step := gatherHandle sels keywords targetLimit count p
    let rest := gatherRun sels keywords targetLimit step.1 ps
    (rest.1, match step.2 with
      | some r => r :: rest.2
      | none => rest.2)

/-- A Site-mode run: every handled page whose keyword filter matches
emits exactly one record; `maxRequestsPerCrawl` (the Site-mode limit)
bounds the number of handled pages, which the caller supplies as a
hypothesis. -/
def siteRun (sels : List String) (keywords : String) (pages : List Page) :
    List Record :=
  (pages.filter (fun p => siteMatches keywords p)).map (siteExtract sels)

/-! ## Job events and the stop signal

The server registers each job in `activeCrawlers`; the `stop-crawl`
socket handler removes it and tears the crawler down.  Every request
handler begins with `if (!activeCrawlers.has(jobId)) return;`, and the
section from that check to `io.emit` is synchronous, so a handler
emits only if the job was still registered when the handler ran.
After `crawler.run` resolves, `crawl-complete` is emitted (also after
a stop — stopping is not an error); the `catch` emits `crawl-error`.
A run is modelled as a sequence of handler invocations interleaved
with at most one stop signal. -/

inductive Event where
  /-- `crawl-data-jobId` -/
  | record (r : Record) : Event
  /-- `crawl-complete-jobId` -/
  | complete : Event
  /-- `crawl-error-jobId` -/
  | error (msg : String) : Event
deriving Repr, DecidableEq

/-- Is the event terminal (`crawl-complete` or `crawl-error`)? -/
def Event.isTerminal : Event → Bool
  | .record _ => false
  | .complete => true
  | .error _ => true

/-- Is the event a record emission? -/
def Event.isRecord : Event → Bool
  | .record _ => true
  | _ => false

inductive Action where
  /-- one request-handler invocation on a page -/
  | handle (p : Page) : Action
  /-- the `stop-crawl` socket handler: deregisters the job -/
  | stop : Action
deriving Repr, DecidableEq

/-- Record events produced by a sequence of Site-mode handler
invocations and stop signals; `active` is whether the job is still in
`activeCrawlers`.  A handler on an inactive job returns before
extracting or emitting. -/
def eventsFrom (sels : List String) (keywords : String) :
    Bool → List Action → List Event
  | _, [] => []
  | _, .stop :: rest => eventsFrom sels keywords false rest
  | active, .handle p :: rest =>
    (if active && siteMatches keywords p
     then [Event.record (siteExtract sels p)] else []) ++
    eventsFrom sels keywords active rest

/-- The full event trace of a Site job that does not throw: the
handler-produced records followed by the single `crawl-complete`
emitted after `crawler.run` resolves. -/
def jobTrace (sels : List String) (keywords : String) (acts : List Action) :
    List Event :=
  eventsFrom sels keywords true acts ++ [Event.complete]

/-- Record events produced by a sequence of Gather-mode handler
invocations (on content pages) and stop signals, threading the job's
`emittedCount`.  A handler on a deregistered job returns at the
`activeCrawlers.has(jobId)` check, emitting nothing and leaving the
count untouched; an active handler behaves as `gatherHandle`. -/
def gatherEventsFrom (sels : List String) (keywords : String) (targetLimit : Nat) :
    Bool → Nat → List Action → List Event
  | _, _, [] => []
  | _, c, Action.stop :: rest => gatherEventsFrom sels keywords targetLimit false c rest
  | false, c, Action.handle _ :: rest =>
    gatherEventsFrom sels keywords targetLimit false c rest
  | true, c, Action.handle p :: rest =>
    (match (gatherHandle sels keywords targetLimit c p).2 with
      | some r => [Event.record r]
      | none => []) ++
    gatherEventsFrom sels keywords targetLimit true
      (gatherHandle sels keywords targetLimit c p).1 rest

/-- The full event trace of a Gather job (valid configuration, no
exception): handler-produced records followed by the single
`crawl-complete` emitted after `crawler.run` resolves — also after a
stop. -/
def gatherTrace (sels : List String) (keywords : String) (targetLimit : Nat)
    (acts : List Action) : List Event :=
  gatherEventsFrom sels keywords targetLimit true 0 acts ++ [Event.complete]

/-! ## Job start (`/api/crawl`, `/api/gather`, `startGatherer` validation) -/

/-- The HTTP response body of `/api/crawl` and `/api/gather`: both
endpoints respond immediately, before any validation runs. -/
structure StartResponse where
  jobId : String
  message : String
deriving Repr, DecidableEq

/-- `/api/crawl` response — the URL is not inspected. -/
def apiCrawlResponse (jobId _url : String) : StartResponse :=
  { jobId := jobId, message := "Crawler started" }

/-- `/api/gather` response — topic and keywords are not inspected. -/
def apiGatherResponse (jobId _topic _keywords : String) : StartResponse :=
  { jobId := jobId, message := "Gatherer started" }

/-- Does `startGatherer` throw its validation error?
`topic || ""` and `keywords || ""` make absent fields `""`; the check
is `if (!searchTopic && !searchKeywords) throw`. -/
def gatherConfigInvalid (topic keywords : String) : Bool :=
  topic = "" && keywords = ""

/-- The event trace of a Gather job, validation included: an invalid
configuration is thrown before the crawler is built or registered and
surfaces through the `catch` as a single `crawl-error` event;
otherwise the run emits its records and then `crawl-complete`. -/
def gatherJobTrace (topic keywords : String) (sels : List String)
    (targetLimit : Nat) (pages : List Page) : List Event :=
  if gatherConfigInvalid topic keywords then
    [Event.error "No topic or keywords provided for search."]
  else
    ((gatherRun sels keywords targetLimit 0 pages).2.map Event.record) ++
      [Event.complete]

/-- Is the job ever inserted into `activeCrawlers`?  The insertion at
`activeCrawlers.set(jobId, crawler)` is only reached after validation
passes. -/
def gatherJobRegistered (topic keywords : String) : Bool :=
  !gatherConfigInvalid topic keywords

/-! ## Concrete pages used as witnesses and counterexamples -/

/-- A page whose body mentions "ai" but not "ml". -/
def pageAI : Page :=
  { url := "https://a.test/"
    title := "AI news"
    headings := ["One", "One"]
    paragraphs := ["Hello", ""]
    metaDescription := none
    metaKeywords := none
    images := []
    anchors := ["/b", "/b"]
    bodyText := "this page mentions ai only" }

/-- A page carrying duplicate headings, links and image sources that
survive the Gather-mode filters. -/
def pageDup : Page :=
  { url := "https://d.test/"
    title := "dup"
    headings := ["abcd", "abcd"]
    paragraphs := []
    metaDescription := none
    metaKeywords := none
    images := [{ src := "http://i.test/a.png", alt := "a" },
               { src := "http://i.test/a.png", alt := "b" }]
    anchors := ["http://x.test/", "http://x.test/"]
    bodyText := "body" }

/-- A paragraph of exactly 20 characters. -/
def para20 : String := "aaaaaaaaaaaaaaaaaaaa"

/-- A page whose only paragraph has exactly 20 characters. -/
def page20 : Page :=
  { url := "https://t.test/"
    title := "t"
    headings := []
    paragraphs := [para20]
    metaDescription := none
    metaKeywords := none
    images := []
    anchors := []
    bodyText := "body" }

/-! ## Helper lemmas -/

/-- Every list starts with the empty list. -/
theorem clStartsWith_nil (l : List Char) : clStartsWith l [] = true := by
  cases l <;> rfl

/-- JS `hay.includes("")` is always true. -/
theorem jsIncludes_empty (s : String) : jsIncludes s "" = true := by
  unfold jsIncludes
  cases s.data with
  | nil => rfl
  | cons h t => simp [clContains, clStartsWith_nil]

theorem dedupFirstAux_spec (xs : List String) :
    ∀ seen, (dedupFirstAux seen xs).Nodup ∧
      ∀ x ∈ dedupFirstAux seen xs, inList seen x = false := by
  induction xs with
  | nil => intro seen; simp [dedupFirstAux]
  | cons x xs ih =>
    intro seen
    cases hx : inList seen x with
    | true =>
      rw [dedupFirstAux, if_pos hx]
      exact ih seen
    | false =>
      rw [dedupFirstAux, if_neg (by simp [hx])]
      have h2 := ih (x :: seen)
      refine ⟨?_, ?_⟩
      · refine List.nodup_cons.2 ⟨fun hmem => ?_, h2.1⟩
        have h3 := h2.2 x hmem
        simp [inList] at h3
      · intro y hy
        rcases List.mem_cons.1 hy with rfl | hy2
        · exact hx
        · have h4 := h2.2 y hy2
          simp only [inList, Bool.or_eq_false_iff] at h4
          exact h4.2

/-- `[...new Set(xs)]` yields a duplicate-free list. -/
theorem dedupFirst_nodup (xs : List String) : (dedupFirst xs).Nodup :=
  (dedupFirstAux_spec xs []).1

theorem dedupBySrcAux_spec (xs : List Image) :
    ∀ seen, ((dedupBySrcAux seen xs).map Image.src).Nodup ∧
      ∀ img ∈ dedupBySrcAux seen xs, inList seen img.src = false := by
  induction xs with
  | nil => intro seen; simp [dedupBySrcAux]
  | cons img xs ih =>
    intro seen
    cases hx : inList seen img.src with
    | true =>
      rw [dedupBySrcAux, if_pos hx]
      exact ih seen
    | false =>
      rw [dedupBySrcAux, if_neg (by simp [hx])]
      have h2 := ih (img.src :: seen)
      refine ⟨?_, ?_⟩
      · rw [List.map_cons]
        refine List.nodup_cons.2 ⟨fun hmem => ?_, h2.1⟩
        rcases List.mem_map.1 hmem with ⟨img2, himg2, hsrc⟩
        have h3 := h2.2 img2 himg2
        simp [inList, hsrc] at h3
      · intro y hy
        rcases List.mem_cons.1 hy with rfl | hy2
        · exact hx
        · have h4 := h2.2 y hy2
          simp only [inList, Bool.or_eq_false_iff] at h4
          exact h4.2

/-- Image de-duplication yields pairwise-distinct `src` values. -/
theorem dedupBySrc_nodup (xs : List Image) :
    ((dedupBySrc xs).map Image.src).Nodup :=
  (dedupBySrcAux_spec xs []).1

/-- Each handler invocation either leaves the count and emits nothing,
or emits exactly one record while the count is strictly below the limit
and increments the count. -/
theorem gatherHandle_cases (sels : List String) (kw : String) (L c : Nat) (p : Page) :
    gatherHandle sels kw L c p = (c, none) ∨
      (c < L ∧ gatherHandle sels kw L c p = (c + 1, some (gatherExtract sels p))) := by
  unfold gatherHandle
  by_cases h1 : c ≥ L
  · left; rw [if_pos h1]
  · rw [if_neg h1]
    by_cases h2 : gatherMatches kw p = true
    · rw [if_pos h2]
      right
      have hlt : c < L := Nat.lt_of_not_le h1
      exact ⟨hlt, by rw [if_pos hlt]⟩
    · left
      rw [if_neg h2]

/-- The final count is the initial count plus the number of emitted
records. -/
theorem gatherRun_count_eq (sels : List String) (kw : String) (L : Nat) :
    ∀ (pages : List Page) (c : Nat),
      (gatherRun sels kw L c pages).1 = c + (gatherRun sels kw L c pages).2.length := by
  intro pages
  induction pages with
  | nil => intro c; simp [gatherRun]
  | cons p ps ih =>
    intro c
    rcases gatherHandle_cases sels kw L c p with h | ⟨hlt, h⟩
    · simp only [gatherRun, h]
      exact ih c
    · simp only [gatherRun, h, List.length_cons]
      rw [ih (c + 1)]
      omega

/-- The count never exceeds the limit. -/
theorem gatherRun_count_le (sels : List String) (kw : String) (L : Nat) :
    ∀ (pages : List Page) (c : Nat), c ≤ L → (gatherRun sels kw L c pages).1 ≤ L := by
  intro pages
  induction pages with
  | nil => intro c hc; simpa [gatherRun] using hc
  | cons p ps ih =>
    intro c hc
    rcases gatherHandle_cases sels kw L c p with h | ⟨hlt, h⟩
    · simp only [gatherRun, h]
      exact ih c hc
    · simp only [gatherRun, h]
      exact ih (c + 1) hlt

/-- Once the count has reached the limit, no page emits anything. -/
theorem gatherRun_at_limit (sels : List String) (kw : String) (L : Nat) :
    ∀ pages : List Page, (gatherRun sels kw L L pages).2 = [] := by
  intro pages
  induction pages with
  | nil => rfl
  | cons p ps ih =>
    have h : gatherHandle sels kw L L p = (L, none) := by
      unfold gatherHandle
      rw [if_pos (Nat.le_refl L)]
    simp only [gatherRun, h]
    exact ih

/-- Claim C1: in every run the number of emitted records never exceeds
the job's effective limit.  Gather mode: a record is emitted only while
`emittedCount < targetLimit`, each emission increments the count (so the
final count is the initial count plus the number of records emitted),
the count never exceeds the limit, a run from zero emits at most
`targetLimit` records, and at `emittedCount = targetLimit` no further
record is emitted.  Site mode: each handled page emits at most one
record, so the `maxRequestsPerCrawl` bound on handled pages bounds the
emitted records by the limit. -/
theorem emission_bounded_by_limit :
    (∀ (sels : List String) (kw : String) (L : Nat) (pages : List Page) (c : Nat),
      c ≤ L →
        (gatherRun sels kw L c pages).1 = c + (gatherRun sels kw L c pages).2.length ∧
        (gatherRun sels kw L c pages).1 ≤ L) ∧
    (∀ (sels : List String) (kw : String) (L : Nat) (pages : List Page),
      (gatherRun sels kw L 0 pages).2.length ≤ L) ∧
    (∀ (sels : List String) (kw : String) (L : Nat) (pages : List Page),
      (gatherRun sels kw L L pages).2 = []) ∧
    (∀ (sels : List String) (kw : String) (L : Nat) (pages : List Page),
      pages.length ≤ L → (siteRun sels kw pages).length ≤ L) := by
  refine ⟨fun sels kw L pages c hc =>
      ⟨gatherRun_count_eq sels kw L pages c, gatherRun_count_le sels kw L pages c hc⟩,
    fun sels kw L pages => ?_,
    fun sels kw L pages => gatherRun_at_limit sels kw L pages,
    fun sels kw L pages hlen => ?_⟩
  · have h1 := gatherRun_count_eq sels kw L pages 0
    have h2 := gatherRun_count_le sels kw L pages 0 (Nat.zero_le L)
    omega
  · calc (siteRun sels kw pages).length
        = ((pages.filter (fun p => siteMatches kw p))).length := by
          simp [siteRun]
      _ ≤ pages.length := List.length_filter_le _ _
      _ ≤ L := hlen

/-- Witness for C1: a concrete Gather run with limit 1 over two
matching pages emits exactly one record, and a concrete Site run obeys
its request bound. -/
theorem emission_bounded_by_limit_witness :
    ((0 : Nat) ≤ 1 ∧
      (gatherRun ["text"] "" 1 0 [pageAI, pageAI]).1 =
        0 + (gatherRun ["text"] "" 1 0 [pageAI, pageAI]).2.length ∧
      (gatherRun ["text"] "" 1 0 [pageAI, pageAI]).1 ≤ 1) ∧
    ([pageAI].length ≤ 1 ∧ (siteRun ["text"] "" [pageAI]).length ≤ 1) :=
  ⟨⟨Nat.zero_le 1, emission_bounded_by_limit.1 ["text"] "" 1 [pageAI, pageAI] 0 (by decide)⟩,
   ⟨by decide, emission_bounded_by_limit.2.2.2 ["text"] "" 1 [pageAI] (by decide)⟩⟩

/-- Counterexample to C2: a Gather start request with neither topic
nor keywords does NOT fail synchronously — the endpoint responds
"Gatherer started" with a jobId — and an event (a `crawl-error`) IS
later delivered for the request. -/
theorem invalid_gather_delivers_error_event :
    apiGatherResponse "j1" "" "" = { jobId := "j1", message := "Gatherer started" } ∧
    gatherJobTrace "" "" ["text"] 50 [] =
      [Event.error "No topic or keywords provided for search."] := by
  constructor
  · rfl
  · rfl

/-- Claim C2 (amended): an invalid Gather request (neither topic nor
keywords) never registers a crawler, and its trace is exactly one
`crawl-error` event — no record and no completion event; the failure
surfaces asynchronously through the error event, while the start
endpoint responds with a jobId regardless.  Site mode performs no URL
validation at all: `/api/crawl` responds "Crawler started" even for an
empty URL. -/
theorem invalid_gather_rejected_asynchronously :
    (∀ (topic keywords : String) (sels : List String) (L : Nat) (pages : List Page),
      gatherConfigInvalid topic keywords = true →
        gatherJobTrace topic keywords sels L pages =
          [Event.error "No topic or keywords provided for search."] ∧
        gatherJobRegistered topic keywords = false) ∧
    (∀ jobId url, apiCrawlResponse jobId url =
      { jobId := jobId, message := "Crawler started" }) := by
  constructor
  · intro topic keywords sels L pages h
    constructor
    · simp [gatherJobTrace, h]
    · simp [gatherJobRegistered, h]
  · intro jobId url
    rfl

/-- Witness for the amended C2 at the concrete invalid configuration
(topic and keywords both absent). -/
theorem invalid_gather_rejected_asynchronously_witness :
    gatherConfigInvalid "" "" = true ∧
    (gatherJobTrace "" "" [] 50 [] =
        [Event.error "No topic or keywords provided for search."] ∧
      gatherJobRegistered "" "" = false) :=
  ⟨by decide, invalid_gather_rejected_asynchronously.1 "" "" [] 50 [] (by decide)⟩

/-- Claim C3: with an empty keyword configuration every candidate is
accepted; with a non-empty one, acceptance holds iff AT LEAST ONE
keyword of the parsed keyword list is a substring of the lowercased
body text (Gather mode: of the lowercased body text or the lowercased
title) — OR semantics. -/
theorem keyword_filter_or_semantics :
    ∀ (kw : String) (p : Page),
      (kw = "" → siteMatches kw p = true ∧ gatherMatches kw p = true) ∧
      (kw ≠ "" →
        ((siteMatches kw p = true ↔
          ∃ k ∈ siteKeywordList kw, jsIncludes (jsToLower p.bodyText) k = true) ∧
        (gatherMatches kw p = true ↔
          ∃ k ∈ gatherKeywordList kw,
            (jsIncludes (jsToLower p.bodyText) k ||
              jsIncludes (jsToLower (jsTrim p.title)) k) = true))) := by
  intro kw p
  constructor
  · intro h
    simp [siteMatches, gatherMatches, h]
  · intro h
    constructor
    · rw [siteMatches, if_neg h, List.any_eq_true]
    · rw [gatherMatches, if_neg h, List.any_eq_true]

/-- Witness for C3: the spec's scenario — keywords "ai,ml" on a body
containing "ai" only — is accepted via OR semantics. -/
theorem keyword_filter_or_semantics_witness :
    ("ai,ml" ≠ "" ∧
      (siteMatches "ai,ml" pageAI = true ↔
        ∃ k ∈ siteKeywordList "ai,ml", jsIncludes (jsToLower pageAI.bodyText) k = true)) ∧
    siteMatches "ai,ml" pageAI = true :=
  ⟨⟨by decide, ((keyword_filter_or_semantics "ai,ml" pageAI).2 (by decide)).1⟩, by decide⟩

/-- Claim C10: in Site mode, any non-empty keywords string whose
comma-split list contains a segment that trims to the empty string
(trailing comma, whitespace-only keywords, …) accepts every page,
because the empty string is a substring of every body text. -/
theorem empty_segment_accepts_all :
    ∀ (keywords : String) (p : Page),
      keywords ≠ "" → "" ∈ siteKeywordList keywords →
        siteMatches keywords p = true := by
  intro keywords p hne hmem
  rw [siteMatches, if_neg hne, List.any_eq_true]
  exact ⟨"", hmem, jsIncludes_empty _⟩

/-- Witness for C10: the trailing-comma keywords string "ai," accepts
a page whose body contains neither "ai" nor anything else required. -/
theorem empty_segment_accepts_all_witness :
    ("ai," : String) ≠ "" ∧ "" ∈ siteKeywordList "ai," ∧
      siteMatches "ai," page20 = true :=
  ⟨by decide, by decide, empty_segment_accepts_all "ai," page20 (by decide) (by decide)⟩

/-- Claim C4: the Search Query Planner builds exactly
`min(5, ceil(limit/5))` paginated seed URLs, page `i` offset by
`i * 30` (the fixed page size), over the query obtained by
whitespace-joining topic and keywords and trimming; the spec's
scenario (limit 10, topic "rust", empty keywords) yields exactly the
two expected URLs. -/
theorem query_planner_pagination :
    (∀ (L : Nat) (topic keywords : String),
      (searchUrls L topic keywords).length = min 5 ((L + 4) / 5) ∧
      ∀ i : Nat, (searchUrls L topic keywords)[i]? =
        if i < min 5 ((L + 4) / 5) then
          some (mkSearchUrl (jsTrim (topic ++ " " ++ keywords)) (i * 30))
        else none) ∧
    searchUrls 10 "rust" "" =
      ["https://duckduckgo.com/html/?q=rust&s=0",
       "https://duckduckgo.com/html/?q=rust&s=30"] := by
  constructor
  · intro L topic keywords
    constructor
    · simp [searchUrls, maxPages]
    · intro i
      by_cases hi : i < min 5 ((L + 4) / 5)
      · rw [if_pos hi]
        have hr : (List.range (maxPages L))[i]? = some i := by
          rw [List.getElem?_eq_getElem (by simpa [maxPages] using hi)]
          simp
        simp [searchUrls, List.getElem?_map, hr]
      · rw [if_neg hi]
        apply List.getElem?_eq_none
        simp only [searchUrls, List.length_map, List.length_range, maxPages]
        omega
  · decide

/-- If a list starts with one character, it does not start with a
different one. -/
theorem clStartsWith_ne_first (l : List Char) (a b : Char) (as bs : List Char)
    (hne : a ≠ b) (h : clStartsWith l (a :: as) = true) :
    clStartsWith l (b :: bs) = false := by
  cases l with
  | nil => simp [clStartsWith] at h
  | cons x xs =>
    rw [clStartsWith, Bool.and_eq_true] at h
    have hx : x = a := by simpa using h.1
    subst hx
    rw [clStartsWith]
    simp [hne]

/-- A provider-relative `/l/…` wrapper link is not an absolute
`http…` link. -/
theorem wrapper_not_http (link : String) (h : jsStartsWith link "/l/" = true) :
    jsStartsWith link "http" = false := by
  unfold jsStartsWith at h ⊢
  have h1 : ("/l/" : String).data = ['/', 'l', '/'] := rfl
  have h2 : ("http" : String).data = ['h', 't', 't', 'p'] := rfl
  rw [h1] at h
  rw [h2]
  exact clStartsWith_ne_first _ _ _ _ _ (by decide) h

/-- Counterexample to C5: the enqueue guard is a substring test on the
whole URL, not an origin comparison.  The absolute link
`https://evil.example/duckduckgo.com` points at host `evil.example`,
not at the provider's origin, yet it is NOT enqueued. -/
theorem enqueue_guard_substring_not_origin :
    jsStartsWith (ddgResolveLink "https://evil.example/duckduckgo.com") "http" = true ∧
    urlHostOf (ddgResolveLink "https://evil.example/duckduckgo.com") = "evil.example" ∧
    specLinkAccepted "https://evil.example/duckduckgo.com" = true ∧
    ddgShouldEnqueue "https://evil.example/duckduckgo.com" = false :=
  ⟨by decide, by decide, by decide, by decide⟩

/-- Claim C5 (amended): a `/l/…` wrapper link whose `uddg` parameter
is present and non-empty resolves to that parameter's (form-decoded)
value; a wrapper whose `uddg` parameter is missing or empty (falsy) is
kept as-is and therefore discarded; a link is enqueued iff the
resulting URL starts with "http" and does not contain the substring
"duckduckgo.com" anywhere in the URL (a substring test, not an origin
comparison); the spec's scenario link resolves to
`https://example.com` and is enqueued, the empty-`uddg` wrapper is
kept, and a fragment is no part of the query, so a
`#duckduckgo.com` fragment survives the unwrap and the page is
enqueued. -/
theorem ddg_redirect_resolution :
    (∀ (link u : String), jsStartsWith link "/l/" = true → u ≠ "" →
      searchParamGet link "uddg" = some u → ddgResolveLink link = u) ∧
    (∀ link : String, jsStartsWith link "/l/" = true →
      (searchParamGet link "uddg" = none ∨ searchParamGet link "uddg" = some "") →
        ddgResolveLink link = link ∧ ddgShouldEnqueue link = false) ∧
    (∀ link : String, ddgShouldEnqueue link = true ↔
      (jsStartsWith (ddgResolveLink link) "http" = true ∧
        jsIncludes (ddgResolveLink link) "duckduckgo.com" = false)) ∧
    ddgResolveLink "/l/?uddg=https%3A%2F%2Fexample.com&rut=x" = "https://example.com" ∧
    ddgShouldEnqueue "/l/?uddg=https%3A%2F%2Fexample.com&rut=x" = true ∧
    ddgResolveLink "/l/?uddg=&rut=x" = "/l/?uddg=&rut=x" ∧
    ddgShouldEnqueue "/l/?uddg=http%3A%2F%2Fa.com#duckduckgo.com" = true := by
  refine ⟨?_, ?_, ?_, by decide, by decide, by decide, by decide⟩
  · intro link u h1 hu h2
    simp [ddgResolveLink, h1, h2, hu]
  · intro link h1 h2
    have hres : ddgResolveLink link = link := by
      rcases h2 with h2 | h2 <;> simp [ddgResolveLink, h1, h2]
    refine ⟨hres, ?_⟩
    rw [ddgShouldEnqueue]
    simp only [hres, wrapper_not_http link h1, Bool.false_and]
  · intro link
    rw [ddgShouldEnqueue]
    simp [Bool.and_eq_true]

/-- Witness for C5 (amended): the scenario wrapper link, with the
hypotheses checked at the concrete input. -/
theorem ddg_redirect_resolution_witness :
    jsStartsWith "/l/?uddg=https%3A%2F%2Fexample.com&rut=x" "/l/" = true ∧
    ("https://example.com" : String) ≠ "" ∧
    searchParamGet "/l/?uddg=https%3A%2F%2Fexample.com&rut=x" "uddg" =
      some "https://example.com" ∧
    ddgResolveLink "/l/?uddg=https%3A%2F%2Fexample.com&rut=x" = "https://example.com" :=
  ⟨by decide, by decide, by decide,
    ddg_redirect_resolution.1 "/l/?uddg=https%3A%2F%2Fexample.com&rut=x"
      "https://example.com" (by decide) (by decide) (by decide)⟩

/-- Counterexample to C6: Gather mode applies no de-duplication; a
page with repeated headings, repeated links and repeated image sources
yields a record whose arrays contain duplicate values. -/
theorem gather_record_contains_duplicates :
    (gatherExtract ["headings", "links", "images"] pageDup).headings =
      some ["abcd", "abcd"] ∧
    (gatherExtract ["headings", "links", "images"] pageDup).links =
      some ["http://x.test/", "http://x.test/"] ∧
    (gatherExtract ["headings", "links", "images"] pageDup).images.map
      (fun l => l.map Image.src) =
      some ["http://i.test/a.png", "http://i.test/a.png"] :=
  ⟨by decide, by decide, by decide⟩

/-- An optional string array has no duplicates (trivially true when
the field is absent). -/
def optStringsNodup : Option (List String) → Prop
  | none => True
  | some l => l.Nodup

/-- An optional image array has pairwise-distinct `src` values. -/
def optImagesSrcNodup : Option (List Image) → Prop
  | none => True
  | some l => (l.map Image.src).Nodup

/-- Claim C6 (amended): in Site mode every emitted record's headings
and links arrays contain no duplicate values and its images array no
two entries with the same `src`; Gather mode applies no
de-duplication, so duplicates from the page are preserved there. -/
theorem site_record_no_duplicates :
    ∀ (sels : List String) (p : Page),
      optStringsNodup (siteExtract sels p).headings ∧
      optStringsNodup (siteExtract sels p).links ∧
      optImagesSrcNodup (siteExtract sels p).images := by
  intro sels p
  refine ⟨?_, ?_, ?_⟩ <;> simp only [siteExtract]
  · by_cases h : wantsHeading sels = true <;>
      simp [h, optStringsNodup, dedupFirst_nodup]
  · by_cases h : wantsLink sels = true <;>
      simp [h, optStringsNodup, dedupFirst_nodup]
  · by_cases h : wantsImage sels = true <;>
      simp [h, optImagesSrcNodup, dedupBySrc_nodup]

/-- Counterexample to C7: the Gather-mode text filter keeps only
entries STRICTLY longer than 20 characters, so an entry of exactly 20
characters is dropped, where the claim says it is kept. -/
theorem gather_text_drops_exactly_20_chars :
    para20.length = 20 ∧ (gatherExtract ["text"] page20).text = some [] :=
  ⟨by decide, by decide⟩

/-- Claim C7 (amended): the text extractor yields the trimmed texts of
all paragraph elements with empty strings dropped; Gather mode keeps
only entries STRICTLY longer than 20 characters (an entry of exactly
20 characters is dropped) and truncates to the first 10. -/
theorem text_extractor_behaviour :
    ∀ (sels : List String) (p : Page) (l : List String),
      ((siteExtract sels p).text = some l →
        l = (p.paragraphs.map jsTrim).filter (fun t => t.length > 0) ∧
        ∀ t ∈ l, t.length > 0) ∧
      ((gatherExtract sels p).text = some l →
        l = ((p.paragraphs.map jsTrim).filter (fun t => t.length > 20)).take 10 ∧
        (∀ t ∈ l, t.length > 20) ∧ l.length ≤ 10) := by
  intro sels p l
  constructor
  · intro h
    simp only [siteExtract] at h
    split at h
    · have hl := (Option.some.inj h).symm
      refine ⟨hl, ?_⟩
      intro t ht
      rw [hl] at ht
      exact of_decide_eq_true (List.mem_filter.1 ht).2
    · cases h
  · intro h
    simp only [gatherExtract] at h
    split at h
    · have hl := (Option.some.inj h).symm
      refine ⟨hl, ?_, ?_⟩
      · intro t ht
        rw [hl] at ht
        have ht2 := List.take_subset _ _ ht
        exact of_decide_eq_true (List.mem_filter.1 ht2).2
      · rw [hl]
        exact List.length_take_le _ _
    · cases h

/-- Witness for C7 (amended) at concrete pages: `pageAI` (site: "Hello"
kept, "" dropped) and `page20` (gather: the 20-character entry is
gone). -/
theorem text_extractor_behaviour_witness :
    ((siteExtract ["text"] pageAI).text = some ["Hello"] ∧
      (["Hello"] = (pageAI.paragraphs.map jsTrim).filter (fun t => t.length > 0) ∧
        ∀ t ∈ ["Hello"], t.length > 0)) ∧
    ((gatherExtract ["text"] page20).text = some [] ∧
      (([] : List String) =
          ((page20.paragraphs.map jsTrim).filter (fun t => t.length > 20)).take 10 ∧
        (∀ t ∈ ([] : List String), t.length > 20) ∧
          ([] : List String).length ≤ 10)) :=
  ⟨⟨by decide, (text_extractor_behaviour ["text"] pageAI ["Hello"]).1 (by decide)⟩,
   ⟨by decide, (text_extractor_behaviour ["text"] page20 []).2 (by decide)⟩⟩

/-- Claim C8: an optional field is present in an emitted record only
if its selector kind was requested: whenever a kind's guard does not
hold of the job's selectors, the corresponding field is `none`, in
both modes. -/
theorem field_present_only_if_requested :
    ∀ (sels : List String) (p : Page),
      (wantsHeading sels = false → (siteExtract sels p).headings = none) ∧
      (wantsText sels = false → (siteExtract sels p).text = none) ∧
      (wantsMeta sels = false → (siteExtract sels p).meta = none) ∧
      (wantsImage sels = false → (siteExtract sels p).images = none) ∧
      (wantsLink sels = false → (siteExtract sels p).links = none) ∧
      (sels.contains "headings" = false → (gatherExtract sels p).headings = none) ∧
      (sels.contains "text" = false → (gatherExtract sels p).text = none) ∧
      (sels.contains "meta" = false → (gatherExtract sels p).meta = none) ∧
      (sels.contains "images" = false → (gatherExtract sels p).images = none) ∧
      (sels.contains "links" = false → (gatherExtract sels p).links = none) := by
  intro sels p
  refine ⟨?_, ?_, ?_, ?_, ?_, ?_, ?_, ?_, ?_, ?_⟩ <;> intro h <;>
    first
      | (simp [siteExtract, h]; done)
      | (simp only [gatherExtract]
         rw [if_neg (fun hc => by rw [hc] at h; exact Bool.noConfusion h)])

/-- Witness for C8: with no selectors requested, no optional field is
present. -/
theorem field_present_only_if_requested_witness :
    (wantsHeading [] = false ∧ (siteExtract [] pageAI).headings = none) ∧
    (List.contains [] "links" = false ∧ (gatherExtract [] pageAI).links = none) :=
  ⟨⟨by decide, (field_present_only_if_requested [] pageAI).1 (by decide)⟩,
   ⟨by decide,
    (field_present_only_if_requested [] pageAI).2.2.2.2.2.2.2.2.2 (by decide)⟩⟩

/-- A deregistered job produces no events: every handler returns at
its `activeCrawlers.has(jobId)` check. -/
theorem eventsFrom_inactive (sels : List String) (kw : String) :
    ∀ acts : List Action, eventsFrom sels kw false acts = [] := by
  intro acts
  induction acts with
  | nil => rfl
  | cons a rest ih =>
    cases a with
    | stop => simpa [eventsFrom] using ih
    | handle p => simpa [eventsFrom] using ih

/-- Everything after a stop signal contributes no events. -/
theorem eventsFrom_append_stop (sels : List String) (kw : String) :
    ∀ (pre post : List Action) (active : Bool),
      eventsFrom sels kw active (pre ++ Action.stop :: post) =
        eventsFrom sels kw active pre := by
  intro pre
  induction pre with
  | nil =>
    intro post active
    simp [eventsFrom, eventsFrom_inactive]
  | cons a rest ih =>
    intro post active
    cases a with
    | stop => simp [eventsFrom, ih]
    | handle p => simp [eventsFrom, ih]

/-- Handler invocations emit only record events, never terminal
ones. -/
theorem eventsFrom_no_terminal (sels : List String) (kw : String) :
    ∀ (acts : List Action) (active : Bool),
      (eventsFrom sels kw active acts).countP Event.isTerminal = 0 := by
  intro acts
  induction acts with
  | nil => intro active; rfl
  | cons a rest ih =>
    intro active
    cases a with
    | stop => simpa [eventsFrom] using ih false
    | handle p =>
      rw [eventsFrom, List.countP_append, ih active]
      by_cases h : (active && siteMatches kw p) = true <;>
        simp [h, Event.isTerminal, List.countP_cons]

/-- A deregistered Gather job produces no events and its count is
untouched: every handler returns at its `activeCrawlers.has(jobId)`
check. -/
theorem gatherEventsFrom_inactive (sels : List String) (kw : String) (L : Nat) :
    ∀ (acts : List Action) (c : Nat),
      gatherEventsFrom sels kw L false c acts = [] := by
  intro acts
  induction acts with
  | nil => intro c; rfl
  | cons a rest ih =>
    intro c
    cases a with
    | stop => simpa [gatherEventsFrom] using ih c
    | handle p => simpa [gatherEventsFrom] using ih c

/-- Everything after a stop signal contributes no events to a Gather
trace, whatever the count had reached. -/
theorem gatherEventsFrom_append_stop (sels : List String) (kw : String) (L : Nat) :
    ∀ (pre post : List Action) (active : Bool) (c : Nat),
      gatherEventsFrom sels kw L active c (pre ++ Action.stop :: post) =
        gatherEventsFrom sels kw L active c pre := by
  intro pre
  induction pre with
  | nil =>
    intro post active c
    simp [gatherEventsFrom, gatherEventsFrom_inactive]
  | cons a rest ih =>
    intro post active c
    cases a with
    | stop => simp [gatherEventsFrom, ih]
    | handle p =>
      cases active with
      | false => simp [gatherEventsFrom, ih]
      | true => simp [gatherEventsFrom, ih]

/-- Gather handler invocations emit only record events, never terminal
ones. -/
theorem gatherEventsFrom_no_terminal (sels : List String) (kw : String) (L : Nat) :
    ∀ (acts : List Action) (active : Bool) (c : Nat),
      (gatherEventsFrom sels kw L active c acts).countP Event.isTerminal = 0 := by
  intro acts
  induction acts with
  | nil => intro active c; simp [gatherEventsFrom]
  | cons a rest ih =>
    intro active c
    cases a with
    | stop => simpa [gatherEventsFrom] using ih false c
    | handle p =>
      cases active with
      | false => simpa [gatherEventsFrom] using ih false c
      | true =>
        rw [gatherEventsFrom, List.countP_append, ih true _]
        cases h2 : (gatherHandle sels kw L c p).2 <;>
          simp [Event.isTerminal, List.countP_cons]

/-- Claim C9: for every job, in both modes, once a stop request has
been observed no record event fires afterwards — the whole trace
equals the records emitted before the stop plus the single final
event — and exactly one terminal event fires for the job, which for a
clean stop is `crawl-complete`, not `crawl-error`. -/
theorem stop_prevents_records_one_terminal :
    ∀ (sels : List String) (kw : String) (L : Nat) (pre post : List Action),
      (jobTrace sels kw (pre ++ Action.stop :: post) =
        eventsFrom sels kw true pre ++ [Event.complete] ∧
      (jobTrace sels kw (pre ++ Action.stop :: post)).countP Event.isTerminal = 1 ∧
      (jobTrace sels kw (pre ++ Action.stop :: post)).getLast? =
        some Event.complete) ∧
      (gatherTrace sels kw L (pre ++ Action.stop :: post) =
        gatherEventsFrom sels kw L true 0 pre ++ [Event.complete] ∧
      (gatherTrace sels kw L (pre ++ Action.stop :: post)).countP Event.isTerminal = 1 ∧
      (gatherTrace sels kw L (pre ++ Action.stop :: post)).getLast? =
        some Event.complete) := by
  intro sels kw L pre post
  have h1 := eventsFrom_append_stop sels kw pre post true
  have h2 := gatherEventsFrom_append_stop sels kw L pre post true 0
  refine ⟨⟨by rw [jobTrace, h1], ?_, ?_⟩, ⟨by rw [gatherTrace, h2], ?_, ?_⟩⟩
  · rw [jobTrace, h1, List.countP_append, eventsFrom_no_terminal]
    rfl
  · rw [jobTrace]
    exact List.getLast?_concat _
  · rw [gatherTrace, h2, List.countP_append, gatherEventsFrom_no_terminal]
    rfl
  · rw [gatherTrace]
    exact List.getLast?_concat _

end Crawler4
